import Mathlib

/-!
# Verification of the kilomoco profile manager

Shallow embedding of the core of the `kilomoco` package
(`kilomoco/config.py`, `kilomoco/vscode.py`, `kilomoco/launcher.py`,
`kilomoco/cli.py`) together with proofs of the behavioural claims about
profile discovery, instance reconciliation and launching.

Python dictionaries are embedded as association lists over `String` keys
(`PyDict`): assignment `d[k] = v` is `alInsert` (replace in place if the key
is present, append otherwise — exactly Python's insertion-order semantics),
`dict.update` is `alUpdate`, subscript/`get` is `alLookup`, and `==` on
dictionaries is the two-way pointwise comparison `pyDictEqJson` below.
Filesystem and process-table state is passed explicitly as parameters.
-/

/-- Association list with string keys: the embedding of a Python `dict`
with insertion-order iteration. -/
abbrev PyDict (α : Type) := List (String × α)

/-- `k in d` for a Python dict. -/
def alHasKey {α : Type} (d : PyDict α) (k : String) : Bool :=
  d.any (fun p => p.1 == k)

/-- `d[k]` / `d.get(k)` for a Python dict (first binding wins; real Python
dicts never hold a duplicate key). -/
def alLookup {α : Type} : PyDict α → String → Option α
  | [], _ => none
  | p :: t, k => if p.1 == k then some p.2 else alLookup t k

/-- `d[k] = v` for a Python dict: replace the binding in place when the key
is already present, append a new binding otherwise. -/
def alInsert {α : Type} (d : PyDict α) (k : String) (v : α) : PyDict α :=
  if alHasKey d k then d.map (fun p => if p.1 == k then (k, v) else p)
  else d ++ [(k, v)]

/-- `d.update(e)` for Python dicts: insert every binding of `e` into `d`. -/
def alUpdate {α : Type} (d e : PyDict α) : PyDict α :=
  e.foldl (fun acc p => alInsert acc p.1 p.2) d

/-- `list(d.keys())`. -/
def alKeys {α : Type} (d : PyDict α) : List String :=
  d.map (fun p => p.1)

/-- A dict is well formed when no key occurs twice (always true of a real
Python dict; stated explicitly because association lists allow repeats). -/
def NodupKeys {α : Type} (d : PyDict α) : Prop :=
  (alKeys d).Nodup

/-! ## Embedding of `kilomoco/config.py` -/

/-- `ModeCombinationProfile` dataclass (config.py lines 10–15). -/
structure ModeCombinationProfile where
  id : String
  name : String
  description : String
  modes : PyDict String
deriving DecidableEq

/-- Value sitting under the `modes` key of a parsed YAML profile document,
in the fragment the loader inspects: either a string-to-string mapping
(`isinstance(data["modes"], dict)` holds) or anything else (tagged). -/
inductive ModesVal where
  | strMap : PyDict String → ModesVal
  | notAMapping : Nat → ModesVal
deriving DecidableEq

/-- A parsed top-level YAML mapping, restricted to the fields the loader
reads.  Scalar fields are modelled in the string-valued fragment the
profile files use. -/
structure YamlDoc where
  id : Option String
  name : Option String
  description : Option String
  modes : Option ModesVal
deriving DecidableEq

/-- Outcome of `yaml.safe_load` on one profile file: an exception
(`failed`, covering parse errors and read errors — both are caught by the
`except Exception` arm), a document that is not a key-value mapping
(`isinstance(data, dict)` is false), or a mapping. -/
inductive YamlParse where
  | failed : YamlParse
  | nonMapping : Nat → YamlParse
  | mapping : YamlDoc → YamlParse
deriving DecidableEq

/-- One candidate profile file: its filename stem and its parse outcome. -/
structure YamlFile where
  stem : String
  content : YamlParse
deriving DecidableEq

/-- A profiles directory, as the sequence of files the two glob loops of
`load_profiles_from_dir` visit (`*.yml` files in glob order followed by
`*.yaml` files in glob order). -/
abbrev ProfilesDir := List YamlFile

/-- The per-file body of `load_profiles_from_dir` (config.py lines
200–213): `none` exactly when the file is skipped with a warning (parse
failure, top level not a dict, or `modes` missing / not a dict), otherwise
the constructed profile with `id` defaulting to the filename stem, `name`
defaulting to the id and `description` defaulting to `""`. -/
def docProfile (f : YamlFile) : Option ModeCombinationProfile :=
  match f.content with
  | .mapping doc =>
    match doc.modes with
    | some (.strMap m) =>
      let pid := doc.id.getD f.stem
      some ⟨pid, doc.name.getD pid, doc.description.getD "", m⟩
    | _ => none
  | _ => none

/-- `load_profiles_from_dir` (config.py lines 184–238): fold over the
directory's files, inserting each valid profile under `profile.id` and
skipping invalid files. -/
def load_profiles_from_dir (dir : ProfilesDir) : PyDict ModeCombinationProfile :=
  dir.foldl (fun profiles f =>
    match docProfile f with
    | some p => alInsert profiles p.id p
    | none => profiles) []

/-- The observable environment of `profiles_dir_candidates`: each field is
`some dir` when the corresponding candidate exists (for the first one:
`KILOMOCO_PROFILES_DIR` is set and the path exists) and carries the
directory's files. -/
structure Env where
  envProfilesDir : Option ProfilesDir
  cwdProfilesDir : Option ProfilesDir
  homeProfilesDir : Option ProfilesDir

/-- `profiles_dir_candidates` (config.py lines 154–181): the existing
candidates, in the order environment variable, `./profiles`,
`~/.kilomoco/profiles`. -/
def profiles_dir_candidates (e : Env) : List ProfilesDir :=
  e.envProfilesDir.toList ++ e.cwdProfilesDir.toList ++ e.homeProfilesDir.toList

/-- `discover_profiles` (config.py lines 241–252): start from `{}` and
`update` with each candidate directory's profiles in order, so a later
directory's profile replaces an earlier one with the same id. -/
def discover_profiles (e : Env) : PyDict ModeCombinationProfile :=
  (profiles_dir_candidates e).foldl
    (fun all_profiles d => alUpdate all_profiles (load_profiles_from_dir d)) []

/-- The hardcoded fallback table of `default_profiles` (config.py lines
27–140), transcribed verbatim. -/
def builtin_profiles : PyDict ModeCombinationProfile :=
  [ ("lopr",
     ⟨"lopr", "Low-Price (Economy)",
      "Budget-friendly model combinations for cost-conscious usage",
      [("default", "llama-4-maverick"), ("orchestrator", "deepseek-v3.2-exp"),
       ("architect", "minimax-m2"), ("code", "minimax-m2"),
       ("debug", "deepseek-v3.1-terminus"), ("ask", "llama-4-maverick"),
       ("administrator", "deepseek-v3.2-exp")]⟩),
    ("copr",
     ⟨"copr", "Complex-Programming (Agentic Coding)",
      "Optimized for complex programming tasks and agentic workflows",
      [("default", "gpt-5-mini"), ("orchestrator", "claude-sonnet-4.5"),
       ("architect", "gemini-2.5-pro"), ("code", "qwen3-coder"),
       ("debug", "claude-haiku-4.5"), ("ask", "glm-4.6"),
       ("administrator", "glm-4.6")]⟩),
    ("hiq",
     ⟨"hiq", "High-Quality (Premium)",
      "Premium models for highest quality output",
      [("default", "gemini-2.5-pro"), ("orchestrator", "claude-sonnet-4.5"),
       ("architect", "gpt-5"), ("code", "claude-sonnet-4.5"),
       ("debug", "claude-sonnet-4.5"), ("ask", "gemini-2.5-pro"),
       ("administrator", "gpt-5")]⟩),
    ("bas",
     ⟨"bas", "Balanced-Speed (speed)",
      "Balanced performance with good speed",
      [("default", "grok-code-fast-1"), ("orchestrator", "gemini-2.5-flash"),
       ("architect", "gpt-5-mini"), ("code", "grok-code-fast-1"),
       ("debug", "gemini-2.5-flash"), ("ask", "grok-code-fast-1"),
       ("administrator", "gemini-2.5-flash")]⟩),
    ("res",
     ⟨"res", "Repository-Scale (big codebases)",
      "Optimized for large codebases and repository-scale tasks",
      [("default", "gemini-2.5-flash"), ("orchestrator", "gemini-2.5-pro"),
       ("architect", "qwen3-max"), ("code", "qwen3-coder"),
       ("debug", "glm-4.6"), ("ask", "llama-4-maverick"),
       ("administrator", "qwen3-max")]⟩),
    ("ags",
     ⟨"ags", "Agent-Specialist (Autonome Workflows)",
      "Specialized for autonomous workflows and agent operations",
      [("default", "minimax-m2"), ("orchestrator", "claude-sonnet-4.5"),
       ("architect", "deepseek-v3.1-terminus"), ("code", "glm-4.6"),
       ("debug", "claude-haiku-4.5"), ("ask", "gpt-5-mini"),
       ("administrator", "deepseek-v3.1-terminus")]⟩),
    ("refo",
     ⟨"refo", "Research-Focused (analyse & science)",
      "Optimized for research, analysis, and scientific tasks",
      [("default", "qwen3-max"), ("orchestrator", "gemini-2.5-pro"),
       ("architect", "gpt-5"), ("code", "mistral-large"),
       ("debug", "claude-sonnet-4.5"), ("ask", "gemini-2.5-flash"),
       ("administrator", "mistral-large")]⟩),
    ("buco",
     ⟨"buco", "Budget-Conscious-Pro (budget and efficiency)",
      "Professional quality with budget consciousness",
      [("default", "gemini-2.5-flash"), ("orchestrator", "gpt-5-mini"),
       ("architect", "qwen3-coder"), ("code", "grok-code-fast-1"),
       ("debug", "claude-haiku-4.5"), ("ask", "deepseek-v3.2-exp"),
       ("administrator", "minimax-m2")]⟩) ]

/-- `default_profiles` (config.py lines 17–140): discovered profiles when
any were found (a non-empty dict is truthy), the built-in table otherwise. -/
def default_profiles (e : Env) : PyDict ModeCombinationProfile :=
  let discovered := discover_profiles e
  if discovered.isEmpty then builtin_profiles else discovered

/-- The seven mode names every built-in profile defines, in source order. -/
def sevenModeNames : List String :=
  ["default", "orchestrator", "architect", "code", "debug", "ask", "administrator"]

/-! ## Embedding of `kilomoco/vscode.py`

Python string operations are embedded through the character list
(`String.data`). -/

/-- `s.startswith(pre)`. -/
def pyStartsWith (s pre : String) : Bool :=
  pre.data.isPrefixOf s.data

/-- `s.endswith(suf)`, via the reversed character lists. -/
def pyEndsWith (s suf : String) : Bool :=
  suf.data.reverse.isPrefixOf s.data.reverse

/-- `s.split('.', 2)` on the character list: at most two splits, so at most
three parts. -/
def pySplitDot2 (s : List Char) : List (List Char) :=
  let a := s.takeWhile (fun c => c != '.')
  match s.dropWhile (fun c => c != '.') with
  | [] => [a]
  | _ :: r1 =>
    let b := r1.takeWhile (fun c => c != '.')
    match r1.dropWhile (fun c => c != '.') with
    | [] => [a, b]
    | _ :: r2 => [a, b, r2]

/-- `key.split('.', 2)[1]` as used at vscode.py line 145 (the caller has
already checked `key.startswith('kilo-code.')`, so the key has at least one
dot and index 1 exists; out of that range the embedding totalises with `""`). -/
def modeOfKey (key : String) : String :=
  String.mk ((pySplitDot2 key.data).getD 1 [])

/-- A JSON value in a value position of a settings object: a string, or any
other JSON value (number, boolean, null, array, object), tagged so that two
distinct non-string values can be told apart.  A non-string value never
compares equal to a string, mirroring Python `==`. -/
inductive Json where
  | str : String → Json
  | other : Nat → Json
deriving DecidableEq

/-- Python `v == s` for a JSON value `v` and a string `s`. -/
def jsonEqStr (j : Json) (s : String) : Bool :=
  match j with
  | .str t => t == s
  | .other _ => false

/-- Python `profile.modes == kilo_settings` (vscode.py line 157): dict
equality, i.e. the two dicts bind exactly the same keys to equal values.
For dicts (which never repeat a key) the two-way pointwise comparison below
is exactly CPython's length-and-lookup check. -/
def pyDictEqJson (modes : PyDict String) (ks : PyDict Json) : Bool :=
  modes.all (fun p =>
    match alLookup ks p.1 with
    | some j => jsonEqStr j p.2
    | none => false) &&
  ks.all (fun q =>
    match alLookup modes q.1 with
    | some v => jsonEqStr q.2 v
    | none => false)

/-- `generate_mode_settings` (vscode.py lines 18–27): one
`kilo-code.<mode>.model` entry per mode. -/
def generate_mode_settings (profile : ModeCombinationProfile) : PyDict String :=
  profile.modes.foldl
    (fun settings p => alInsert settings ("kilo-code." ++ p.1 ++ ".model") p.2) []

/-- The content of a settings file written by `apply_mode_configuration`:
`json.dump` followed by `json.load` returns each string value unchanged. -/
def settingsAsJson (settings : PyDict String) : PyDict Json :=
  settings.map (fun p => (p.1, Json.str p.2))

/-- The extraction loop of `get_current_profile_from_instance` (vscode.py
lines 142–147): for every settings key starting with `kilo-code.` and
ending with `.model`, bind `key.split('.', 2)[1]` to the key's value. -/
def extract_kilo_settings (settings : PyDict Json) : PyDict Json :=
  settings.foldl
    (fun kilo p =>
      if pyStartsWith p.1 "kilo-code." then
        if pyEndsWith p.1 ".model" then alInsert kilo (modeOfKey p.1) p.2
        else kilo
      else kilo) []

/-- An `Instance` dict as built by `detect_vscode_instances`. -/
structure VSCodeInstance where
  workspace : Option String
  user_data_dir : Option String
  has_kilo : Bool
  pid : Nat
deriving DecidableEq

/-- What the filesystem yields for `<user_data_dir>/User/settings.json`:
the file is absent, present but `json.load` raises
(`JSONDecodeError`/`OSError`), or parsed — to a JSON object or to some
other JSON value (on which `settings.items()` would fail). -/
inductive SettingsRead where
  | absent : SettingsRead
  | unparseable : SettingsRead
  | parsedObj : PyDict Json → SettingsRead
  | parsedNonObj : Nat → SettingsRead
deriving DecidableEq

/-- The uncaught exception an embedded function can raise. -/
inductive PyErr where
  | attributeError : PyErr
deriving DecidableEq

/-- First exact match in registry iteration order: the
`for profile_id, profile in profiles.items()` loop of vscode.py lines
156–160. -/
def findMatchingProfile (profiles : PyDict ModeCombinationProfile)
    (kilo_settings : PyDict Json) : Option String :=
  match profiles with
  | [] => none
  | p :: rest =>
    if pyDictEqJson p.2.modes kilo_settings then some p.1
    else findMatchingProfile rest kilo_settings

/-- `get_current_profile_from_instance` (vscode.py lines 121–160).  The
current registry (`default_profiles()`) and the settings-file read outcome
are passed explicitly.  The only statement in the body that can raise an
exception not absorbed by the `try` block is `settings.items()` on a
non-object JSON document, modelled by the `.error` arm. -/
def get_current_profile_from_instance (profiles : PyDict ModeCombinationProfile)
    (inst : VSCodeInstance) (read : SettingsRead) :
    Except PyErr (Option String) :=
  match inst.user_data_dir with
  | none => .ok none
  | some udd =>
    if udd == "" then .ok none
    else
      match read with
      | .absent => .ok none
      | .unparseable => .ok none
      | .parsedNonObj _ => .error .attributeError
      | .parsedObj settings =>
        let kilo_settings := extract_kilo_settings settings
        if kilo_settings.isEmpty then .ok none
        else .ok (findMatchingProfile profiles kilo_settings)

/-- What `psutil.process_iter(['pid', 'name', 'cmdline'])` yields for one
process.  `accessible = false` models a process raising
`NoSuchProcess`/`AccessDenied` when inspected (silently skipped). -/
structure ProcInfo where
  pid : Nat
  name : Option String
  cmdline : Option (List String)
  accessible : Bool
deriving DecidableEq

/-- The argument-parsing `while` loop of `detect_vscode_instances`
(vscode.py lines 90–99): the value following a `--user-data-dir` flag is
taken as the user data directory (and consumed, a later occurrence
overriding an earlier one); the first remaining argument that does not
start with `-` and is not `code` becomes the workspace. -/
def parseCmdline : List String → Option String → Option String →
    Option String × Option String
  | [], udd, ws => (udd, ws)
  | arg :: rest, udd, ws =>
    if arg == "--user-data-dir" then
      match rest with
      | v :: rest2 => parseCmdline rest2 (some v) ws
      | [] => (udd, ws)
    else if !pyStartsWith arg "-" && ws.isNone && arg != "code" then
      parseCmdline rest udd (some arg)
    else parseCmdline rest udd ws

/-- `<user_data_dir>/extensions/kilocode.kilo-code`, the directory whose
existence marks the kilo extension as installed (vscode.py lines 103–106). -/
def kiloExtensionPath (udd : String) : String :=
  udd ++ "/extensions/kilocode.kilo-code"

/-- The body of `detect_vscode_instances` for one process: `some` an
instance exactly when the process is accessible, is named `code`/`Code`,
its arguments yield a truthy user data directory (`if user_data_dir:` at
vscode.py line 103, so an empty-string value leaves `has_kilo` false) and
the kilo extension directory exists under it. -/
def procInstance (dirExists : String → Bool) (proc : ProcInfo) :
    Option VSCodeInstance :=
  if !proc.accessible then none
  else if proc.name == some "code" || proc.name == some "Code" then
    let parsed := parseCmdline (proc.cmdline.getD []) none none
    match parsed.1 with
    | some udd =>
      if udd == "" then none
      else if dirExists (kiloExtensionPath udd) then
        some ⟨parsed.2, some udd, true, proc.pid⟩
      else none
    | none => none
  else none

/-- `detect_vscode_instances` (vscode.py lines 74–118): append an instance
for each qualifying process, in process-iteration order.  The process table
snapshot and the filesystem's directory-existence test are passed
explicitly. -/
def detect_vscode_instances (procs : List ProcInfo)
    (dirExists : String → Bool) : List VSCodeInstance :=
  procs.foldl
    (fun instances proc =>
      match procInstance dirExists proc with
      | some inst => instances ++ [inst]
      | none => instances) []

/-! ## Embedding of `kilomoco/launcher.py` and `kilomoco/cli.py` -/

/-- Lexicographic code-point comparison of strings, i.e. the order Python's
`sorted` uses on `str`. -/
def charsLe : List Char → List Char → Bool
  | [], _ => true
  | _ :: _, [] => false
  | a :: as, b :: bs =>
    if a < b then true
    else if b < a then false
    else charsLe as bs

/-- Insert a string into an already sorted list. -/
def insertSorted (x : String) : List String → List String
  | [] => [x]
  | y :: t => if charsLe x.data y.data then x :: y :: t else y :: insertSorted x t

/-- Python `sorted` on a list of strings (insertion sort). -/
def sortedStrings (l : List String) : List String :=
  l.foldr insertSorted []

/-- The exceptions `prepare_and_launch` raises; the `ValueError` carries
`sorted(profiles.keys())`, the id list joined into its message. -/
inductive LauncherErr where
  | runtimeCodeNotFound : LauncherErr
  | profileNotFound : List String → LauncherErr
deriving DecidableEq

/-- `prepare_and_launch` (launcher.py lines 15–53).  The environment enters
as parameters: whether `code` is on the `PATH`, the resolved registry
(`default_profiles()`), and the exit code of the launched editor process.
Applying the configuration and launching are external effects; the
returned value is the editor's exit code, as in the source. -/
def prepare_and_launch (code_available : Bool)
    (profiles : PyDict ModeCombinationProfile) (profile_name : String)
    (launch_exit : Int) : Except LauncherErr Int :=
  if !code_available then .error .runtimeCodeNotFound
  else if !alHasKey profiles profile_name then
    .error (.profileNotFound (sortedStrings (alKeys profiles)))
  else .ok launch_exit

/-- The names bound at module level in `kilomoco/config.py` (imports at
lines 2–8 and the definitions): the names `from kilomoco.config import x`
can resolve. -/
def config_module_names : List String :=
  ["dataclass", "asdict", "Dict", "Optional", "json", "os", "warnings",
   "Path", "yaml", "ModeCombinationProfile", "default_profiles",
   "load_profiles_from_file", "save_profiles_to_file",
   "profiles_dir_candidates", "load_profiles_from_dir", "discover_profiles"]

/-- The names `kilomoco/launcher.py` line 8 imports from `kilomoco.config`. -/
def launcher_config_import_names : List String :=
  ["default_profiles", "ModeProfile"]

/-- The exceptions visible at the CLI boundary. -/
inductive CliErr where
  | importError : String → CliErr
deriving DecidableEq

/-- Importing `kilomoco.launcher`: `from .config import ...` succeeds only
if every requested name is bound in the config module, otherwise it raises
`ImportError` naming the first missing name. -/
def import_launcher_module : Except CliErr Unit :=
  match launcher_config_import_names.find? (fun n => !config_module_names.contains n) with
  | some missing => .error (.importError missing)
  | none => .ok ()

/-- `cli.main` on an invocation carrying a `--profile` value (cli.py lines
26–36, with `--list` absent): the `elif args.profile:` guard is Python
truthiness, so an empty-string value falls through to the placeholder
branch, which prints a notice and returns 0 without importing the
launcher.  A truthy value imports the launcher module and calls
`prepare_and_launch`, converting `ValueError` and `RuntimeError` to exit
code 1; an `ImportError` raised by the import statement is not in the
`except` clause and propagates. -/
def cli_main_profile (code_available : Bool)
    (profiles : PyDict ModeCombinationProfile) (profile_name : String)
    (launch_exit : Int) : Except CliErr Int :=
  if profile_name == "" then .ok 0
  else
    match import_launcher_module with
    | .error e => .error e
    | .ok _ =>
      match prepare_and_launch code_available profiles profile_name launch_exit with
      | .error _ => .ok 1
      | .ok rc => .ok rc

/-! ## Lemmas about the dict embedding -/

theorem alLookup_cons {α : Type} (p : String × α) (t : PyDict α) (x : String) :
    alLookup (p :: t) x = if p.1 = x then some p.2 else alLookup t x := by
  simp [alLookup, beq_iff_eq]

theorem alHasKey_cons {α : Type} (p : String × α) (t : PyDict α) (x : String) :
    alHasKey (p :: t) x = (p.1 == x || alHasKey t x) := by
  simp [alHasKey]

theorem alHasKey_iff_mem_keys {α : Type} (d : PyDict α) (k : String) :
    alHasKey d k = true ↔ k ∈ alKeys d := by
  simp only [alHasKey, List.any_eq_true, beq_iff_eq, alKeys, List.mem_map]

theorem alLookup_eq_none_of_not_mem {α : Type} (d : PyDict α) (k : String)
    (h : k ∉ alKeys d) : alLookup d k = none := by
  induction d with
  | nil => rfl
  | cons p t ih =>
    simp only [alKeys, List.map_cons, List.mem_cons] at h
    push_neg at h
    rw [alLookup_cons, if_neg (Ne.symm h.1)]
    exact ih (by simpa [alKeys] using h.2)

theorem mem_of_alLookup_eq_some {α : Type} (d : PyDict α) (k : String) (v : α)
    (h : alLookup d k = some v) : (k, v) ∈ d := by
  induction d with
  | nil => simp [alLookup] at h
  | cons p t ih =>
    rw [alLookup_cons] at h
    by_cases hp : p.1 = k
    · rw [if_pos hp] at h
      have hv : p.2 = v := by simpa using h
      have hpkv : p = (k, v) := by
        cases p
        simp_all
      simp [hpkv]
    · rw [if_neg hp] at h
      exact List.mem_cons_of_mem p (ih h)

theorem alLookup_eq_some_of_mem_nodup {α : Type} (d : PyDict α) (k : String) (v : α)
    (hd : NodupKeys d) (h : (k, v) ∈ d) : alLookup d k = some v := by
  induction d with
  | nil => simp at h
  | cons p t ih =>
    have hd' : p.1 ∉ alKeys t ∧ NodupKeys t := by
      simpa [NodupKeys, alKeys, List.nodup_cons] using hd
    rcases List.mem_cons.mp h with h | h
    · subst h
      rw [alLookup_cons, if_pos rfl]
    · have hk : k ∈ alKeys t := List.mem_map.mpr ⟨(k, v), h, rfl⟩
      have hne : p.1 ≠ k := fun he => hd'.1 (he ▸ hk)
      rw [alLookup_cons, if_neg hne]
      exact ih hd'.2 h

theorem alLookup_append {α : Type} (a b : PyDict α) (k : String) :
    alLookup (a ++ b) k = (alLookup a k).or (alLookup b k) := by
  induction a with
  | nil => simp [alLookup]
  | cons p t ih =>
    rw [List.cons_append, alLookup_cons, alLookup_cons]
    by_cases hp : p.1 = k <;> simp [hp, ih]

theorem alHasKey_append {α : Type} (a b : PyDict α) (k : String) :
    alHasKey (a ++ b) k = (alHasKey a k || alHasKey b k) := by
  simp [alHasKey]

theorem alKeys_append {α : Type} (a b : PyDict α) :
    alKeys (a ++ b) = alKeys a ++ alKeys b := by
  simp [alKeys]

theorem alLookup_map_replace_ne {α : Type} (d : PyDict α) (k x : String) (v : α)
    (hx : x ≠ k) :
    alLookup (d.map (fun p => if p.1 == k then (k, v) else p)) x = alLookup d x := by
  induction d with
  | nil => rfl
  | cons p t ih =>
    rw [List.map_cons]
    by_cases hp : p.1 = k
    · rw [if_pos (by simpa using hp), alLookup_cons, alLookup_cons, ih]
      have h1 : ¬ ((k, v).1 = x) := by simpa using Ne.symm hx
      have h2 : ¬ (p.1 = x) := by rw [hp]; exact Ne.symm hx
      rw [if_neg h1, if_neg h2]
    · rw [if_neg (by simpa using hp), alLookup_cons, alLookup_cons, ih]

theorem alLookup_map_replace_eq {α : Type} (d : PyDict α) (k : String) (v : α)
    (hk : alHasKey d k = true) :
    alLookup (d.map (fun p => if p.1 == k then (k, v) else p)) k = some v := by
  induction d with
  | nil => simp [alHasKey] at hk
  | cons p t ih =>
    rw [List.map_cons]
    by_cases hp : p.1 = k
    · rw [if_pos (by simpa using hp), alLookup_cons, if_pos rfl]
    · rw [if_neg (by simpa using hp), alLookup_cons, if_neg hp]
      refine ih ?_
      rw [alHasKey_cons] at hk
      simpa [beq_iff_eq, hp] using hk

theorem alLookup_alInsert {α : Type} (d : PyDict α) (k x : String) (v : α) :
    alLookup (alInsert d k v) x = if x = k then some v else alLookup d x := by
  unfold alInsert
  by_cases hk : alHasKey d k = true
  · by_cases hx : x = k
    · subst hx
      rw [if_pos hk, if_pos rfl, alLookup_map_replace_eq d x v hk]
    · rw [if_pos hk, if_neg hx, alLookup_map_replace_ne d k x v hx]
  · have hnk : ¬ k ∈ alKeys d := fun hm => hk ((alHasKey_iff_mem_keys d k).mpr hm)
    rw [if_neg hk, alLookup_append]
    by_cases hx : x = k
    · subst hx
      rw [alLookup_eq_none_of_not_mem d x hnk, if_pos rfl, alLookup_cons, if_pos rfl]
      rfl
    · rw [if_neg hx, alLookup_cons, if_neg (Ne.symm hx)]
      simp [alLookup]

theorem alKeys_map_replace {α : Type} (d : PyDict α) (k : String) (v : α) :
    alKeys (d.map (fun p => if p.1 == k then (k, v) else p)) = alKeys d := by
  induction d with
  | nil => rfl
  | cons p t ih =>
    simp only [alKeys, List.map_cons] at ih ⊢
    congr 1
    by_cases hp : p.1 = k
    · rw [if_pos (by simpa using hp)]
      exact hp.symm
    · rw [if_neg (by simpa using hp)]

theorem alKeys_alInsert {α : Type} (d : PyDict α) (k : String) (v : α) :
    alKeys (alInsert d k v) = if alHasKey d k then alKeys d else alKeys d ++ [k] := by
  unfold alInsert
  by_cases hk : alHasKey d k = true
  · rw [if_pos hk, if_pos hk, alKeys_map_replace]
  · rw [if_neg hk, if_neg hk, alKeys_append]
    rfl

theorem nodupKeys_alInsert {α : Type} (d : PyDict α) (k : String) (v : α)
    (hd : NodupKeys d) : NodupKeys (alInsert d k v) := by
  unfold NodupKeys
  rw [alKeys_alInsert]
  by_cases hk : alHasKey d k = true
  · simpa [hk] using hd
  · simp only [hk, Bool.false_eq_true, if_false]
    rw [List.nodup_append]
    refine ⟨hd, List.nodup_singleton k, ?_⟩
    intro a ha hb
    simp only [List.mem_singleton] at hb
    subst hb
    exact hk ((alHasKey_iff_mem_keys d a).mpr ha)

theorem alLookup_alUpdate {α : Type} (a b : PyDict α) (hb : NodupKeys b) (x : String) :
    alLookup (alUpdate a b) x = (alLookup b x).or (alLookup a x) := by
  induction b generalizing a with
  | nil => simp [alUpdate, alLookup]
  | cons q t ih =>
    have hb' : q.1 ∉ alKeys t ∧ NodupKeys t := by
      simpa [NodupKeys, alKeys, List.nodup_cons] using hb
    have step : alUpdate a (q :: t) = alUpdate (alInsert a q.1 q.2) t := by
      simp [alUpdate]
    rw [step, ih (alInsert a q.1 q.2) hb'.2, alLookup_cons, alLookup_alInsert]
    by_cases hx : x = q.1
    · rw [if_pos hx, if_pos hx.symm,
        alLookup_eq_none_of_not_mem t x (by rw [hx]; exact hb'.1)]
      simp
    · rw [if_neg hx, if_neg (fun h => hx h.symm)]

theorem nodupKeys_alUpdate {α : Type} (a b : PyDict α) (ha : NodupKeys a) :
    NodupKeys (alUpdate a b) := by
  induction b generalizing a with
  | nil => exact ha
  | cons q t ih =>
    have step : alUpdate a (q :: t) = alUpdate (alInsert a q.1 q.2) t := by
      simp [alUpdate]
    rw [step]
    exact ih (alInsert a q.1 q.2) (nodupKeys_alInsert a q.1 q.2 ha)

/-- Keys of a profile registry coincide with the stored profiles' `id`
fields. -/
def KeysAreIds (d : PyDict ModeCombinationProfile) : Prop :=
  ∀ p ∈ d, p.1 = p.2.id

theorem keysAreIds_alInsert (d : PyDict ModeCombinationProfile)
    (k : String) (v : ModeCombinationProfile) (hd : KeysAreIds d) (hv : k = v.id) :
    KeysAreIds (alInsert d k v) := by
  unfold alInsert
  by_cases hk : alHasKey d k = true
  · rw [if_pos hk]
    intro p hp
    rcases List.mem_map.mp hp with ⟨q, hq, he⟩
    by_cases hqk : q.1 = k
    · rw [← he]
      simp [hqk, hv]
    · rw [← he]
      simp only [beq_iff_eq, hqk, if_false]
      exact hd q hq
  · rw [if_neg hk]
    intro p hp
    rcases List.mem_append.mp hp with h | h
    · exact hd p h
    · simp only [List.mem_singleton] at h
      subst h
      exact hv

theorem keysAreIds_alUpdate (a b : PyDict ModeCombinationProfile)
    (ha : KeysAreIds a) (hb : KeysAreIds b) : KeysAreIds (alUpdate a b) := by
  induction b generalizing a with
  | nil => exact ha
  | cons q t ih =>
    have step : alUpdate a (q :: t) = alUpdate (alInsert a q.1 q.2) t := by
      simp [alUpdate]
    rw [step]
    exact ih (alInsert a q.1 q.2)
      (keysAreIds_alInsert a q.1 q.2 ha (hb q (List.mem_cons_self q t)))
      (fun p hp => hb p (List.mem_cons_of_mem q hp))

theorem load_profiles_invariants (dir : ProfilesDir) :
    KeysAreIds (load_profiles_from_dir dir) ∧ NodupKeys (load_profiles_from_dir dir) := by
  unfold load_profiles_from_dir
  generalize hacc : ([] : PyDict ModeCombinationProfile) = acc
  have h0 : KeysAreIds acc ∧ NodupKeys acc := by
    rw [← hacc]
    exact ⟨fun p hp => by simp at hp, by simp [NodupKeys, alKeys]⟩
  clear hacc
  induction dir generalizing acc with
  | nil => simpa using h0
  | cons f t ih =>
    rw [List.foldl_cons]
    rcases hdoc : docProfile f with _ | p
    · exact ih acc h0
    · exact ih (alInsert acc p.id p)
        ⟨keysAreIds_alInsert acc p.id p h0.1 rfl, nodupKeys_alInsert acc p.id p h0.2⟩

theorem discover_profiles_invariants (e : Env) :
    KeysAreIds (discover_profiles e) ∧ NodupKeys (discover_profiles e) := by
  unfold discover_profiles
  generalize hacc : ([] : PyDict ModeCombinationProfile) = acc
  have h0 : KeysAreIds acc ∧ NodupKeys acc := by
    rw [← hacc]
    exact ⟨fun p hp => by simp at hp, by simp [NodupKeys, alKeys]⟩
  clear hacc
  induction profiles_dir_candidates e generalizing acc with
  | nil => simpa using h0
  | cons d t ih =>
    rw [List.foldl_cons]
    exact ih (alUpdate acc (load_profiles_from_dir d))
      ⟨keysAreIds_alUpdate acc (load_profiles_from_dir d) h0.1 (load_profiles_invariants d).1,
       nodupKeys_alUpdate acc (load_profiles_from_dir d) h0.2⟩

/-- Folding `update` over directories none of which bind `x` leaves the
lookup of `x` unchanged. -/
theorem foldl_update_lookup_none (ds : List ProfilesDir)
    (acc : PyDict ModeCombinationProfile) (x : String)
    (h : ∀ d ∈ ds, alLookup (load_profiles_from_dir d) x = none) :
    alLookup (ds.foldl (fun a d => alUpdate a (load_profiles_from_dir d)) acc) x =
      alLookup acc x := by
  induction ds generalizing acc with
  | nil => rfl
  | cons d t ih =>
    rw [List.foldl_cons,
      ih (alUpdate acc (load_profiles_from_dir d)) (fun d' hd' => h d' (List.mem_cons_of_mem d hd')),
      alLookup_alUpdate acc (load_profiles_from_dir d) (load_profiles_invariants d).2 x,
      h d (List.mem_cons_self d t)]
    rfl

/-- Folding `update` over directories: the lookup of `x` is the binding in
the last directory that binds it at all. -/
theorem foldl_update_lookup_last (ds : List ProfilesDir)
    (acc : PyDict ModeCombinationProfile) (x : String)
    (j : Nat) (hj : j < ds.length) (q : ModeCombinationProfile)
    (hq : alLookup (load_profiles_from_dir (ds.get ⟨j, hj⟩)) x = some q)
    (hafter : ∀ l, (hl : l < ds.length) → j < l →
      alLookup (load_profiles_from_dir (ds.get ⟨l, hl⟩)) x = none) :
    alLookup (ds.foldl (fun a d => alUpdate a (load_profiles_from_dir d)) acc) x =
      some q := by
  induction ds generalizing acc j with
  | nil => simp at hj
  | cons d t ih =>
    rw [List.foldl_cons]
    match j with
    | 0 =>
      have hnone : ∀ d' ∈ t, alLookup (load_profiles_from_dir d') x = none := by
        intro d' hd'
        obtain ⟨n, hn, he⟩ : ∃ n, ∃ hn : n < t.length, t.get ⟨n, hn⟩ = d' := by
          obtain ⟨m, hm⟩ := List.mem_iff_get.mp hd'
          exact ⟨m, m.isLt, hm⟩
        have := hafter (n + 1) (by simpa using Nat.succ_lt_succ hn) (Nat.succ_pos n)
        rw [← he]
        simpa using this
      rw [foldl_update_lookup_none t (alUpdate acc (load_profiles_from_dir d)) x hnone,
        alLookup_alUpdate acc (load_profiles_from_dir d) (load_profiles_invariants d).2 x]
      have : alLookup (load_profiles_from_dir d) x = some q := by simpa using hq
      rw [this]
      rfl
    | jj + 1 =>
      refine ih (alUpdate acc (load_profiles_from_dir d)) jj (by simpa using hj)
        (by simpa using hq) ?_
      intro l hl hjl
      have := hafter (l + 1) (by simpa using Nat.succ_lt_succ hl) (Nat.succ_lt_succ hjl)
      simpa using this

theorem idsNodup_of_invariants (d : PyDict ModeCombinationProfile)
    (h1 : KeysAreIds d) (h2 : NodupKeys d) :
    (d.map (fun p => p.2.id)).Nodup := by
  have he : d.map (fun p => p.2.id) = alKeys d :=
    List.map_congr_left (fun p hp => (h1 p hp).symm)
  rw [he]
  exact h2

theorem default_profiles_invariants (e : Env) :
    KeysAreIds (default_profiles e) ∧ NodupKeys (default_profiles e) := by
  show KeysAreIds (if (discover_profiles e).isEmpty then builtin_profiles else discover_profiles e) ∧
    NodupKeys (if (discover_profiles e).isEmpty then builtin_profiles else discover_profiles e)
  by_cases h : (discover_profiles e).isEmpty
  · rw [if_pos h]
    constructor
    · unfold KeysAreIds
      decide
    · unfold NodupKeys alKeys
      decide
  · rw [if_neg h]
    exact discover_profiles_invariants e

/-! ## The claims -/

/-- C1: when several candidate directories (environment variable directory,
then `./profiles`, then `~/.kilomoco/profiles`) yield a profile with the
same id, the resolved registry maps that id to the full profile definition
coming from the directory processed later in priority order — full
replacement, never a field-level merge. -/
theorem discover_later_candidate_wins (e : Env) (i j : Nat)
    (hi : i < j) (hj : j < (profiles_dir_candidates e).length)
    (pid : String) (p q : ModeCombinationProfile)
    (hp : alLookup (load_profiles_from_dir
      ((profiles_dir_candidates e).get ⟨i, Nat.lt_trans hi hj⟩)) pid = some p)
    (hq : alLookup (load_profiles_from_dir
      ((profiles_dir_candidates e).get ⟨j, hj⟩)) pid = some q)
    (hlast : ∀ l, (hl : l < (profiles_dir_candidates e).length) → j < l →
      alLookup (load_profiles_from_dir
        ((profiles_dir_candidates e).get ⟨l, hl⟩)) pid = none) :
    alLookup (discover_profiles e) pid = some q := by
  unfold discover_profiles
  exact foldl_update_lookup_last (profiles_dir_candidates e) [] pid j hj q hq hlast

/-- A profile file defining id `x` with mode table `{"a": "1"}`. -/
def fileXv1 : YamlFile :=
  ⟨"x", .mapping ⟨none, none, none, some (.strMap [("a", "1")])⟩⟩

/-- A profile file defining the same id `x` with mode table `{"a": "2"}`. -/
def fileXv2 : YamlFile :=
  ⟨"x", .mapping ⟨none, none, none, some (.strMap [("a", "2")])⟩⟩

/-- An environment with two candidate directories that both define id `x`. -/
def envTwoDirs : Env := ⟨some [fileXv1], some [fileXv2], none⟩

theorem discover_later_candidate_wins_witness :
    alLookup (discover_profiles envTwoDirs) "x" = some ⟨"x", "x", "", [("a", "2")]⟩ :=
  discover_later_candidate_wins envTwoDirs 0 1 (by decide) (by decide) "x"
    ⟨"x", "x", "", [("a", "1")]⟩ ⟨"x", "x", "", [("a", "2")]⟩
    (by decide) (by decide)
    (by
      intro l hl h1
      have hlen : (profiles_dir_candidates envTwoDirs).length = 2 := rfl
      rw [hlen] at hl
      omega)

/-- C2: when scanning every candidate directory accumulates nothing,
profile resolution returns the fixed built-in table, and every built-in
profile has exactly the seven modes `default, orchestrator, architect,
code, debug, ask, administrator`. -/
theorem default_profiles_fallback (e : Env)
    (h : discover_profiles e = []) :
    default_profiles e = builtin_profiles ∧
    builtin_profiles.all (fun p => alKeys p.2.modes == sevenModeNames) = true := by
  constructor
  · show (if (discover_profiles e).isEmpty then builtin_profiles else discover_profiles e) = _
    rw [h]
    rfl
  · decide

/-- An environment in which no candidate directory exists. -/
def envNoDirs : Env := ⟨none, none, none⟩

theorem default_profiles_fallback_witness :
    default_profiles envNoDirs = builtin_profiles ∧
    builtin_profiles.all (fun p => alKeys p.2.modes == sevenModeNames) = true :=
  default_profiles_fallback envNoDirs rfl

/-- C7: a profile file that fails to parse, does not parse to a key-value
mapping, or lacks a `modes` key holding a mapping, is skipped and never
aborts the scan: the directory loads exactly as if the bad file were not
there, so every valid sibling file still contributes (the embedding is a
total function, so no exception escapes for any single bad file). -/
theorem load_skips_invalid_file (pre post : ProfilesDir) (bad : YamlFile)
    (h : bad.content = .failed ∨ (∃ n, bad.content = .nonMapping n) ∨
      (∃ doc, bad.content = .mapping doc ∧
        (doc.modes = none ∨ ∃ n, doc.modes = some (.notAMapping n)))) :
    load_profiles_from_dir (pre ++ bad :: post) = load_profiles_from_dir (pre ++ post) := by
  have hdoc : docProfile bad = none := by
    rcases h with h | ⟨n, h⟩ | ⟨doc, h, hm⟩
    · simp [docProfile, h]
    · simp [docProfile, h]
    · rcases hm with hm | ⟨n, hm⟩ <;> simp [docProfile, h, hm]
  unfold load_profiles_from_dir
  rw [List.foldl_append, List.foldl_append, List.foldl_cons]
  congr 1
  rw [hdoc]

/-- A valid sibling file defining id `ok1`. -/
def fileOk1 : YamlFile :=
  ⟨"ok1", .mapping ⟨none, none, none, some (.strMap [("code", "m1")])⟩⟩

/-- A valid sibling file defining id `ok2`. -/
def fileOk2 : YamlFile :=
  ⟨"ok2", .mapping ⟨none, none, none, some (.strMap [("code", "m2")])⟩⟩

/-- A profile file whose document lacks a `modes` mapping. -/
def fileNoModes : YamlFile :=
  ⟨"broken", .mapping ⟨none, none, none, none⟩⟩

theorem load_skips_invalid_file_witness :
    load_profiles_from_dir [fileOk1, fileNoModes, fileOk2] =
      load_profiles_from_dir [fileOk1, fileOk2] :=
  load_skips_invalid_file [fileOk1] [fileOk2] fileNoModes
    (Or.inr (Or.inr ⟨⟨none, none, none, none⟩, rfl, Or.inl rfl⟩))

/-- C10: in every mapping returned by `load_profiles_from_dir`,
`discover_profiles` and `default_profiles`, each key equals the `id` field
of the profile it maps to, keys are consistent, and no two stored profiles
share an id. -/
theorem registry_keys_match_ids :
    (∀ dir : ProfilesDir,
      (∀ p ∈ load_profiles_from_dir dir, p.1 = p.2.id) ∧
      NodupKeys (load_profiles_from_dir dir) ∧
      ((load_profiles_from_dir dir).map (fun p => p.2.id)).Nodup) ∧
    (∀ e : Env,
      ((∀ p ∈ discover_profiles e, p.1 = p.2.id) ∧
        NodupKeys (discover_profiles e) ∧
        ((discover_profiles e).map (fun p => p.2.id)).Nodup) ∧
      ((∀ p ∈ default_profiles e, p.1 = p.2.id) ∧
        NodupKeys (default_profiles e) ∧
        ((default_profiles e).map (fun p => p.2.id)).Nodup)) := by
  refine ⟨fun dir => ?_, fun e => ⟨?_, ?_⟩⟩
  · obtain ⟨h1, h2⟩ := load_profiles_invariants dir
    exact ⟨h1, h2, idsNodup_of_invariants _ h1 h2⟩
  · obtain ⟨h1, h2⟩ := discover_profiles_invariants e
    exact ⟨h1, h2, idsNodup_of_invariants _ h1 h2⟩
  · obtain ⟨h1, h2⟩ := default_profiles_invariants e
    exact ⟨h1, h2, idsNodup_of_invariants _ h1 h2⟩

/-- A directory with one file whose document carries an explicit id `y`. -/
def dirExplicitId : ProfilesDir :=
  [⟨"x", .mapping ⟨some "y", none, none, some (.strMap [("a", "1")])⟩⟩]

theorem registry_keys_match_ids_witness :
    ("y", (⟨"y", "y", "", [("a", "1")]⟩ : ModeCombinationProfile)).1 =
      (⟨"y", "y", "", [("a", "1")]⟩ : ModeCombinationProfile).id ∧
    NodupKeys (load_profiles_from_dir dirExplicitId) :=
  ⟨(registry_keys_match_ids.1 dirExplicitId).1
      ("y", ⟨"y", "y", "", [("a", "1")]⟩) (by decide),
    (registry_keys_match_ids.1 dirExplicitId).2.1⟩

theorem mem_insertSorted (x s : String) (l : List String) :
    s ∈ insertSorted x l ↔ s = x ∨ s ∈ l := by
  induction l with
  | nil => simp [insertSorted]
  | cons y t ih =>
    unfold insertSorted
    by_cases hc : charsLe x.data y.data = true
    · rw [if_pos hc]
      simp [List.mem_cons]
    · rw [if_neg hc]
      simp only [List.mem_cons, ih]
      tauto

theorem mem_sortedStrings (l : List String) (s : String) :
    s ∈ sortedStrings l ↔ s ∈ l := by
  induction l with
  | nil => simp [sortedStrings]
  | cons x t ih =>
    unfold sortedStrings at ih ⊢
    rw [List.foldr_cons, mem_insertSorted]
    simp [ih]

/-- C5 (amended): the launcher module imports the name `ModeProfile` from
the config module, but the config module binds no such name, so importing
the launcher always raises `ImportError` and `prepare_and_launch` is never
callable; the CLI catches only `ValueError` and `RuntimeError`, so every
invocation with a truthy (non-empty) `--profile` value propagates the
uncaught `ImportError` instead of launching or returning the documented
error result.  (With an empty `--profile` value the `elif args.profile:`
guard is false and the CLI returns 0 from the placeholder branch without
reaching the import.) -/
theorem launcher_import_always_fails :
    import_launcher_module = .error (.importError "ModeProfile") ∧
    config_module_names.contains "ModeProfile" = false ∧
    ∀ (code_available : Bool) (profiles : PyDict ModeCombinationProfile)
      (profile_name : String) (launch_exit : Int), profile_name ≠ "" →
      cli_main_profile code_available profiles profile_name launch_exit =
        .error (.importError "ModeProfile") := by
  refine ⟨rfl, rfl, ?_⟩
  intro ca profiles pname ec hne
  unfold cli_main_profile
  rw [if_neg (by simpa using hne)]
  rfl

/-- C5 counterexample to the unrestricted claim: invoking the CLI with the
empty `--profile` value never reaches the launcher import — the falsy
`elif args.profile:` guard routes to the placeholder branch, which returns
0 rather than propagating an `ImportError`. -/
theorem launcher_import_always_fails_cex :
    cli_main_profile true builtin_profiles "" 0 = .ok 0 ∧
    cli_main_profile true builtin_profiles "" 0 ≠
      .error (.importError "ModeProfile") := by
  refine ⟨rfl, ?_⟩
  intro h
  rw [show cli_main_profile true builtin_profiles "" 0 = .ok 0 from rfl] at h
  exact Except.noConfusion h

theorem launcher_import_always_fails_witness :
    cli_main_profile true builtin_profiles "bogus" 0 =
      .error (.importError "ModeProfile") :=
  launcher_import_always_fails.2.2 true builtin_profiles "bogus" 0 (by decide)

/-- An instance whose user data directory holds no settings file. -/
def instNoSettings : VSCodeInstance := ⟨some "/w", some "/u", true, 7⟩

/-- C9: requesting a profile id that is not in the registry makes
`prepare_and_launch` fail (given an available editor binary) with a
`ValueError` carrying exactly the set of valid profile ids. -/
theorem prepare_launch_unknown_profile (profiles : PyDict ModeCombinationProfile)
    (profile_name : String) (launch_exit : Int)
    (h : alHasKey profiles profile_name = false) :
    prepare_and_launch true profiles profile_name launch_exit =
      .error (.profileNotFound (sortedStrings (alKeys profiles))) ∧
    ∀ s, s ∈ sortedStrings (alKeys profiles) ↔ s ∈ alKeys profiles := by
  constructor
  · simp [prepare_and_launch, h]
  · intro s
    exact mem_sortedStrings (alKeys profiles) s

/-- A registry holding exactly the ids `lopr` and `copr`. -/
def demoRegistry : PyDict ModeCombinationProfile :=
  [("lopr", ⟨"lopr", "Low-Price (Economy)", "",
    [("default", "llama-4-maverick")]⟩),
   ("copr", ⟨"copr", "Complex-Programming (Agentic Coding)", "",
    [("default", "gpt-5-mini")]⟩)]

theorem prepare_launch_unknown_profile_witness :
    prepare_and_launch true demoRegistry "bogus" 0 =
      .error (.profileNotFound ["copr", "lopr"]) ∧
    ("lopr" ∈ sortedStrings (alKeys demoRegistry) ∧
      "copr" ∈ sortedStrings (alKeys demoRegistry)) := by
  have h := prepare_launch_unknown_profile demoRegistry "bogus" 0 (by decide)
  refine ⟨?_, (h.2 "lopr").mpr (by decide), (h.2 "copr").mpr (by decide)⟩
  rw [h.1]
  rfl

theorem findMatchingProfile_eq_find (profiles : PyDict ModeCombinationProfile)
    (ks : PyDict Json) :
    findMatchingProfile profiles ks =
      (profiles.find? (fun p => pyDictEqJson p.2.modes ks)).map (fun p => p.1) := by
  induction profiles with
  | nil => rfl
  | cons p t ih =>
    unfold findMatchingProfile
    by_cases hc : pyDictEqJson p.2.modes ks = true
    · simp [List.find?, hc]
    · simp only [List.find?, Bool.not_eq_true] at *
      rw [if_neg (by simp [hc]), hc, ih]

theorem jsonEqStr_iff (j : Json) (s : String) :
    jsonEqStr j s = true ↔ j = Json.str s := by
  cases j <;> simp [jsonEqStr]

theorem pyDictEqJson_iff (m : PyDict String) (ks : PyDict Json)
    (hm : NodupKeys m) (hk : NodupKeys ks) :
    pyDictEqJson m ks = true ↔
      ∀ k, (∃ v, alLookup m k = some v ∧ alLookup ks k = some (Json.str v)) ∨
        (alLookup m k = none ∧ alLookup ks k = none) := by
  unfold pyDictEqJson
  rw [Bool.and_eq_true, List.all_eq_true, List.all_eq_true]
  constructor
  · rintro ⟨hall1, hall2⟩ k
    cases hlm : alLookup m k with
    | some v =>
      left
      refine ⟨v, rfl, ?_⟩
      have hmem := mem_of_alLookup_eq_some m k v hlm
      have h1 := hall1 (k, v) hmem
      cases hks : alLookup ks k with
      | some j =>
        rw [hks] at h1
        have hjv : j = Json.str v := (jsonEqStr_iff j v).mp h1
        rw [hjv]
      | none =>
        rw [hks] at h1
        simp at h1
    | none =>
      right
      refine ⟨rfl, ?_⟩
      cases hks : alLookup ks k with
      | some j =>
        have hmem := mem_of_alLookup_eq_some ks k j hks
        have h2 := hall2 (k, j) hmem
        rw [hlm] at h2
        simp at h2
      | none => rfl
  · intro hpt
    constructor
    · intro p hp
      have hl : alLookup m p.1 = some p.2 :=
        alLookup_eq_some_of_mem_nodup m p.1 p.2 hm hp
      rcases hpt p.1 with ⟨v, hv1, hv2⟩ | ⟨hn, _⟩
      · rw [hl] at hv1
        injection hv1 with hv1
        subst hv1
        rw [hv2]
        simp [jsonEqStr]
      · rw [hl] at hn
        exact absurd hn (by simp)
    · intro q hq
      have hl : alLookup ks q.1 = some q.2 :=
        alLookup_eq_some_of_mem_nodup ks q.1 q.2 hk hq
      rcases hpt q.1 with ⟨v, hv1, hv2⟩ | ⟨_, hn⟩
      · rw [hl] at hv2
        injection hv2 with hv2
        rw [hv1, hv2]
        simp [jsonEqStr]
      · rw [hl] at hn
        exact absurd hn (by simp)

/-- C3: with a parsed settings object in hand, reconciliation returns no
match when the extracted mode table is empty, and otherwise the id of the
first profile (in registry iteration order) whose `modes` dict equals the
extracted table exactly; the third conjunct characterises that comparison
as exact dict equality — same keys with identical values, so a strict
subset or superset never matches. -/
theorem reconcile_first_exact_match (profiles : PyDict ModeCombinationProfile)
    (inst : VSCodeInstance) (udd : String) (kvs : PyDict Json)
    (h1 : inst.user_data_dir = some udd) (h2 : udd ≠ "") :
    (extract_kilo_settings kvs = [] →
      get_current_profile_from_instance profiles inst (.parsedObj kvs) = .ok none) ∧
    (extract_kilo_settings kvs ≠ [] →
      get_current_profile_from_instance profiles inst (.parsedObj kvs) =
        .ok ((profiles.find? (fun p =>
          pyDictEqJson p.2.modes (extract_kilo_settings kvs))).map (fun p => p.1))) ∧
    (∀ (m : PyDict String) (ks : PyDict Json), NodupKeys m → NodupKeys ks →
      (pyDictEqJson m ks = true ↔
        ∀ k, (∃ v, alLookup m k = some v ∧ alLookup ks k = some (Json.str v)) ∨
          (alLookup m k = none ∧ alLookup ks k = none))) := by
  have hbase : get_current_profile_from_instance profiles inst (.parsedObj kvs) =
      (if (extract_kilo_settings kvs).isEmpty then .ok none
       else .ok (findMatchingProfile profiles (extract_kilo_settings kvs))) := by
    simp only [get_current_profile_from_instance, h1]
    rw [if_neg (by simpa using h2)]
  refine ⟨?_, ?_, fun m ks hm hk => pyDictEqJson_iff m ks hm hk⟩
  · intro he
    rw [hbase, he]
    rfl
  · intro hne
    rw [hbase, if_neg (by simpa using hne), findMatchingProfile_eq_find]

/-- A parsed settings object carrying one `kilo-code` mode entry that
matches no built-in profile exactly (it is a strict subset of the `lopr`
mode table). -/
def subsetSettings : PyDict Json :=
  [("kilo-code.default.model", Json.str "llama-4-maverick"),
   ("editor.fontSize", Json.other 0)]

theorem reconcile_first_exact_match_witness :
    get_current_profile_from_instance builtin_profiles instNoSettings
      (.parsedObj subsetSettings) =
      .ok ((builtin_profiles.find? (fun p =>
        pyDictEqJson p.2.modes (extract_kilo_settings subsetSettings))).map
          (fun p => p.1)) ∧
    get_current_profile_from_instance builtin_profiles instNoSettings
      (.parsedObj subsetSettings) = .ok none :=
  ⟨((reconcile_first_exact_match builtin_profiles instNoSettings "/u"
      subsetSettings rfl (by decide)).2.1 (by decide)),
   ((reconcile_first_exact_match builtin_profiles instNoSettings "/u"
      subsetSettings rfl (by decide)).2.1 (by decide)).trans rfl⟩

theorem detect_eq_filterMap (procs : List ProcInfo) (dirExists : String → Bool) :
    detect_vscode_instances procs dirExists = procs.filterMap (procInstance dirExists) := by
  have key : ∀ (ps : List ProcInfo) (acc : List VSCodeInstance),
      ps.foldl (fun instances proc =>
        match procInstance dirExists proc with
        | some inst => instances ++ [inst]
        | none => instances) acc = acc ++ ps.filterMap (procInstance dirExists) := by
    intro ps
    induction ps with
    | nil => intro acc; simp
    | cons p t ih =>
      intro acc
      rw [List.foldl_cons]
      cases hp : procInstance dirExists p with
      | none => simp only [hp, List.filterMap_cons, ih]
      | some inst => simp [hp, List.filterMap_cons, ih]
  simpa using key procs []

theorem procInstance_eq_some (dirExists : String → Bool) (proc : ProcInfo)
    (inst : VSCodeInstance) :
    procInstance dirExists proc = some inst ↔
      proc.accessible = true ∧
      (proc.name = some "code" ∨ proc.name = some "Code") ∧
      ∃ u, (parseCmdline (proc.cmdline.getD []) none none).1 = some u ∧
        u ≠ "" ∧
        dirExists (kiloExtensionPath u) = true ∧
        inst = ⟨(parseCmdline (proc.cmdline.getD []) none none).2, some u, true,
          proc.pid⟩ := by
  unfold procInstance
  by_cases ha : proc.accessible = true
  · by_cases hn : (proc.name == some "code" || proc.name == some "Code") = true
    · have hn' : proc.name = some "code" ∨ proc.name = some "Code" := by
        rcases Bool.or_eq_true_iff.mp hn with h | h
        · exact Or.inl (by simpa using h)
        · exact Or.inr (by simpa using h)
      cases hu : (parseCmdline (proc.cmdline.getD []) none none).1 with
      | none => simp [ha, hn, hu]
      | some u0 =>
        by_cases he : u0 = ""
        · subst he
          simp [ha, hn, hn', hu]
        · have he' : (u0 == "") = false := by simpa using he
          by_cases hd : dirExists (kiloExtensionPath u0) = true
          · simp only [ha, Bool.not_true, Bool.false_eq_true, if_false, hn, if_true,
              hu, he', hd, hn', true_and]
            constructor
            · intro h
              injection h with h
              exact ⟨u0, rfl, he, hd, h.symm⟩
            · rintro ⟨u, hu2, _, _, hinst⟩
              injection hu2 with hu2
              subst hu2
              rw [hinst]
          · simp [ha, hn, hu, he', hd]
    · have hn' : ¬ (proc.name = some "code" ∨ proc.name = some "Code") := by
        simpa only [Bool.or_eq_true, beq_iff_eq] using hn
      simp [ha, hn, hn']
  · simp only [Bool.not_eq_true] at ha
    simp [ha]

/-- C8: among the processes named after the editor binary, the detection
result contains an instance for a process (carrying the parsed workspace,
user data directory and pid) precisely when parsing its argument vector
produced a user-data-dir value that is truthy (non-empty, matching the
`if user_data_dir:` guard) and whose `extensions/kilocode.kilo-code`
subdirectory exists; the first conjunct exhibits the parse on a canonical
argument vector (the value following `--user-data-dir`, and the first
non-flag argument other than the program name as workspace). -/
theorem detect_includes_iff (procs : List ProcInfo) (dirExists : String → Bool)
    (proc : ProcInfo) (hmem : proc ∈ procs) (hacc : proc.accessible = true)
    (hname : proc.name = some "code" ∨ proc.name = some "Code")
    (hpids : (procs.map (fun p => p.pid)).Nodup) :
    (∀ u w : String, pyStartsWith w "-" = false → w ≠ "code" →
      parseCmdline ["code", "--user-data-dir", u, w] none none = (some u, some w)) ∧
    ((⟨(parseCmdline (proc.cmdline.getD []) none none).2,
       (parseCmdline (proc.cmdline.getD []) none none).1, true,
       proc.pid⟩ : VSCodeInstance) ∈ detect_vscode_instances procs dirExists ↔
      ∃ u, (parseCmdline (proc.cmdline.getD []) none none).1 = some u ∧
        u ≠ "" ∧ dirExists (kiloExtensionPath u) = true) ∧
    (∀ inst ∈ detect_vscode_instances procs dirExists, inst.pid = proc.pid →
      inst = ⟨(parseCmdline (proc.cmdline.getD []) none none).2,
        (parseCmdline (proc.cmdline.getD []) none none).1, true, proc.pid⟩) := by
  refine ⟨?_, ?_, ?_⟩
  · intro u w h1 h2
    have step1 : parseCmdline ["code", "--user-data-dir", u, w] none none =
        parseCmdline [w] (some u) none := rfl
    rw [step1]
    by_cases hw : w = "--user-data-dir"
    · subst hw
      exact absurd h1 (by decide)
    · have hbeq : (w == "--user-data-dir") = false := by
        simpa using hw
      have hne : (w != "code") = true := by
        simpa using h2
      simp [parseCmdline, hbeq, h1, hne]
  · rw [detect_eq_filterMap]
    constructor
    · intro hmem2
      rcases List.mem_filterMap.mp hmem2 with ⟨p2, hp2mem, hp2⟩
      rcases (procInstance_eq_some dirExists p2 _).mp hp2 with
        ⟨_, _, u, hu, hne, hdir, hinst⟩
      have hpid : p2.pid = proc.pid := congrArg VSCodeInstance.pid hinst.symm
      have hpp : p2 = proc := List.inj_on_of_nodup_map hpids hp2mem hmem hpid
      subst hpp
      exact ⟨u, hu, hne, hdir⟩
    · rintro ⟨u, hu, hne, hdir⟩
      refine List.mem_filterMap.mpr ⟨proc, hmem, ?_⟩
      exact (procInstance_eq_some dirExists proc _).mpr
        ⟨hacc, hname, u, hu, hne, hdir, by rw [hu]⟩
  · intro inst hmem2 hpid
    rw [detect_eq_filterMap] at hmem2
    rcases List.mem_filterMap.mp hmem2 with ⟨p2, hp2mem, hp2⟩
    rcases (procInstance_eq_some dirExists p2 _).mp hp2 with
      ⟨_, _, u, hu, hne, hdir, hinst⟩
    have hpid2 : p2.pid = proc.pid := by
      rw [hinst] at hpid
      exact hpid
    have hpp : p2 = proc := List.inj_on_of_nodup_map hpids hp2mem hmem hpid2
    subst hpp
    rw [hinst, hu]

/-- A process table with one editor process carrying a user data directory
and a workspace argument. -/
def demoProcs : List ProcInfo :=
  [⟨41, some "code", some ["code", "--user-data-dir", "/u", "/w"], true⟩]

/-- A filesystem on which only `/u` has the kilo extension installed. -/
def demoDirExists (path : String) : Bool :=
  path == "/u/extensions/kilocode.kilo-code"

theorem detect_includes_iff_witness :
    parseCmdline ["code", "--user-data-dir", "/u", "/w"] none none =
      (some "/u", some "/w") ∧
    ((⟨some "/w", some "/u", true, 41⟩ : VSCodeInstance) ∈
      detect_vscode_instances demoProcs demoDirExists ↔
      ∃ u, (some "/u" : Option String) = some u ∧ u ≠ "" ∧
        demoDirExists (kiloExtensionPath u) = true) := by
  have h := detect_includes_iff demoProcs demoDirExists
    ⟨41, some "code", some ["code", "--user-data-dir", "/u", "/w"], true⟩
    (by decide) rfl (Or.inl rfl) (by decide)
  exact ⟨h.1 "/u" "/w" (by decide) (by decide), h.2.1⟩

/-! ## String lemmas for the settings round trip -/

theorem strData_append (a b : String) : (a ++ b).data = a.data ++ b.data := rfl

theorem strMk_data (s : String) : String.mk s.data = s := by
  cases s
  rfl

theorem isPrefixOf_append_self (a b : List Char) : a.isPrefixOf (a ++ b) = true := by
  induction a with
  | nil => simp [List.isPrefixOf]
  | cons c t ih => simp [List.isPrefixOf, ih]

theorem takeWhile_cons_neg {α : Type} (p : α → Bool) (c : α) (l : List α)
    (hc : p c = false) : (c :: l).takeWhile p = [] := by
  simp [List.takeWhile, hc]

theorem dropWhile_cons_neg {α : Type} (p : α → Bool) (c : α) (l : List α)
    (hc : p c = false) : (c :: l).dropWhile p = c :: l := by
  simp [List.dropWhile, hc]

theorem takeWhile_append_of_all {α : Type} (p : α → Bool) (a b : List α)
    (h : ∀ c ∈ a, p c = true) : (a ++ b).takeWhile p = a ++ b.takeWhile p := by
  induction a with
  | nil => rfl
  | cons c t ih =>
    have hc : p c = true := h c (List.mem_cons_self c t)
    simp only [List.cons_append, List.takeWhile_cons, hc, if_true,
      ih (fun x hx => h x (List.mem_cons_of_mem c hx))]

theorem dropWhile_append_of_all {α : Type} (p : α → Bool) (a b : List α)
    (h : ∀ c ∈ a, p c = true) : (a ++ b).dropWhile p = b.dropWhile p := by
  induction a with
  | nil => rfl
  | cons c t ih =>
    have hc : p c = true := h c (List.mem_cons_self c t)
    simp only [List.cons_append, List.dropWhile_cons, hc, if_true,
      ih (fun x hx => h x (List.mem_cons_of_mem c hx))]

theorem pySplitDot2_canonical (m : List Char) (hm : ∀ c ∈ m, (c != '.') = true) :
    pySplitDot2 ("kilo-code".data ++ '.' :: (m ++ '.' :: "model".data)) =
      ["kilo-code".data, m, "model".data] := by
  have hpre : ∀ c ∈ ("kilo-code".data : List Char), (c != '.') = true := by decide
  have hdot : ((('.' : Char)) != '.') = false := by decide
  have htw1 : ("kilo-code".data ++ '.' :: (m ++ '.' :: "model".data)).takeWhile
      (fun c => c != '.') = "kilo-code".data := by
    rw [takeWhile_append_of_all _ _ _ hpre, takeWhile_cons_neg (fun c => c != '.') '.' _ hdot,
      List.append_nil]
  have hdw1 : ("kilo-code".data ++ '.' :: (m ++ '.' :: "model".data)).dropWhile
      (fun c => c != '.') = '.' :: (m ++ '.' :: "model".data) := by
    rw [dropWhile_append_of_all _ _ _ hpre, dropWhile_cons_neg (fun c => c != '.') '.' _ hdot]
  have htw2 : (m ++ '.' :: "model".data).takeWhile (fun c => c != '.') = m := by
    rw [takeWhile_append_of_all _ _ _ hm, takeWhile_cons_neg (fun c => c != '.') '.' _ hdot,
      List.append_nil]
  have hdw2 : (m ++ '.' :: "model".data).dropWhile (fun c => c != '.') =
      '.' :: "model".data := by
    rw [dropWhile_append_of_all _ _ _ hm, dropWhile_cons_neg (fun c => c != '.') '.' _ hdot]
  simp only [pySplitDot2, hdw1, htw1, htw2, hdw2]

theorem encoded_key_data (m : String) :
    ("kilo-code." ++ m ++ ".model").data =
      "kilo-code".data ++ '.' :: (m.data ++ '.' :: "model".data) := by
  rw [strData_append, strData_append]
  show ("kilo-code".data ++ ['.']) ++ m.data ++ ('.' :: "model".data) = _
  simp

theorem modeOfKey_encoded (m : String) (hm : ∀ c ∈ m.data, (c != '.') = true) :
    modeOfKey ("kilo-code." ++ m ++ ".model") = m := by
  unfold modeOfKey
  rw [encoded_key_data, pySplitDot2_canonical m.data hm]
  exact strMk_data m

theorem pyStartsWith_encoded (m : String) :
    pyStartsWith ("kilo-code." ++ m ++ ".model") "kilo-code." = true := by
  unfold pyStartsWith
  rw [strData_append, strData_append, List.append_assoc]
  exact isPrefixOf_append_self _ _

theorem pyEndsWith_encoded (m : String) :
    pyEndsWith ("kilo-code." ++ m ++ ".model") ".model" = true := by
  unfold pyEndsWith
  rw [strData_append, strData_append, List.reverse_append]
  exact isPrefixOf_append_self _ _

theorem encModeKey_inj (m1 m2 : String)
    (h : "kilo-code." ++ m1 ++ ".model" = "kilo-code." ++ m2 ++ ".model") :
    m1 = m2 := by
  have hd : ("kilo-code." ++ m1 ++ ".model").data =
      ("kilo-code." ++ m2 ++ ".model").data := by rw [h]
  rw [strData_append, strData_append, strData_append, strData_append] at hd
  have h1 : "kilo-code.".data ++ m1.data = "kilo-code.".data ++ m2.data :=
    List.append_cancel_right hd
  have h2 : m1.data = m2.data := List.append_cancel_left h1
  cases m1
  cases m2
  exact congrArg String.mk (by simpa using h2)

theorem foldl_alInsert_fresh {α : Type} (l : PyDict α) (acc : PyDict α)
    (hfresh : ∀ q ∈ l, alHasKey acc q.1 = false)
    (hnodup : (l.map (fun q => q.1)).Nodup) :
    l.foldl (fun d q => alInsert d q.1 q.2) acc = acc ++ l := by
  induction l generalizing acc with
  | nil => simp
  | cons q t ih =>
    rw [List.foldl_cons]
    have hq : alHasKey acc q.1 = false := hfresh q (List.mem_cons_self q t)
    have hins : alInsert acc q.1 q.2 = acc ++ [q] := by
      unfold alInsert
      rw [if_neg (by simp [hq])]
    have hnodup' : q.1 ∉ t.map (fun q => q.1) ∧ (t.map (fun q => q.1)).Nodup := by
      simpa [List.nodup_cons] using hnodup
    have htail : ∀ r ∈ t, alHasKey (acc ++ [q]) r.1 = false := by
      intro r hr
      rw [alHasKey_append, hfresh r (List.mem_cons_of_mem q hr)]
      have hne : q.1 ≠ r.1 := fun he =>
        hnodup'.1 (he ▸ List.mem_map.mpr ⟨r, hr, rfl⟩)
      simp [alHasKey, hne]
    rw [hins, ih (acc ++ [q]) htail hnodup'.2, List.append_assoc]
    rfl

theorem generate_eq_map (p : ModeCombinationProfile) (hnd : NodupKeys p.modes) :
    generate_mode_settings p =
      p.modes.map (fun q => ("kilo-code." ++ q.1 ++ ".model", q.2)) := by
  unfold generate_mode_settings
  rw [← List.foldl_map (fun q : String × String =>
    ("kilo-code." ++ q.1 ++ ".model", q.2)) (fun d q => alInsert d q.1 q.2)]
  rw [foldl_alInsert_fresh]
  · rw [List.nil_append]
  · intro q hq
    rfl
  · rw [List.map_map]
    have : (Prod.fst ∘ fun q : String × String =>
        ("kilo-code." ++ q.1 ++ ".model", q.2)) =
        (fun q : String × String => "kilo-code." ++ q.1 ++ ".model") := rfl
    rw [this]
    have hcomp : (fun q : String × String => "kilo-code." ++ q.1 ++ ".model") =
        ((fun m => "kilo-code." ++ m ++ ".model") ∘ fun q : String × String => q.1) := rfl
    rw [hcomp, ← List.map_map]
    refine List.Nodup.map (fun a b hab => encModeKey_inj a b hab) hnd

theorem extract_encoded_aux (l : List (String × String)) (acc : PyDict Json)
    (hdot : ∀ q ∈ l, ∀ c ∈ q.1.data, (c != '.') = true) :
    (l.map (fun q => ("kilo-code." ++ q.1 ++ ".model", Json.str q.2))).foldl
      (fun kilo p =>
        if pyStartsWith p.1 "kilo-code." then
          if pyEndsWith p.1 ".model" then alInsert kilo (modeOfKey p.1) p.2
          else kilo
        else kilo) acc =
    l.foldl (fun kilo q => alInsert kilo q.1 (Json.str q.2)) acc := by
  induction l generalizing acc with
  | nil => rfl
  | cons q t ih =>
    rw [List.map_cons, List.foldl_cons, List.foldl_cons]
    rw [if_pos (pyStartsWith_encoded q.1), if_pos (pyEndsWith_encoded q.1),
      modeOfKey_encoded q.1 (hdot q (List.mem_cons_self q t))]
    exact ih _ (fun r hr => hdot r (List.mem_cons_of_mem q hr))

theorem alLookup_map_str (m : PyDict String) (k : String) :
    alLookup (m.map (fun q => (q.1, Json.str q.2))) k =
      (alLookup m k).map Json.str := by
  induction m with
  | nil => rfl
  | cons q t ih =>
    rw [List.map_cons, alLookup_cons, alLookup_cons]
    by_cases hq : q.1 = k <;> simp [hq, ih]

theorem nodupKeys_map_str (m : PyDict String) (hm : NodupKeys m) :
    NodupKeys (m.map (fun q => (q.1, Json.str q.2))) := by
  unfold NodupKeys alKeys at hm ⊢
  rw [List.map_map]
  exact hm

theorem pyDictEqJson_refl_str (m : PyDict String) (hm : NodupKeys m) :
    pyDictEqJson m (m.map (fun q => (q.1, Json.str q.2))) = true := by
  rw [pyDictEqJson_iff m _ hm (nodupKeys_map_str m hm)]
  intro k
  cases hl : alLookup m k with
  | some v =>
    left
    exact ⟨v, rfl, by rw [alLookup_map_str, hl]; rfl⟩
  | none =>
    right
    exact ⟨rfl, by rw [alLookup_map_str, hl]; rfl⟩

theorem extract_of_generated (p : ModeCombinationProfile) (hnd : NodupKeys p.modes)
    (hdot : ∀ q ∈ p.modes, ∀ c ∈ q.1.data, (c != '.') = true) :
    extract_kilo_settings (settingsAsJson (generate_mode_settings p)) =
      p.modes.map (fun q => (q.1, Json.str q.2)) := by
  unfold settingsAsJson
  rw [generate_eq_map p hnd, List.map_map]
  have hcomp : ((fun r : String × String => (r.1, Json.str r.2)) ∘
      (fun q : String × String => ("kilo-code." ++ q.1 ++ ".model", q.2))) =
      (fun q : String × String => ("kilo-code." ++ q.1 ++ ".model", Json.str q.2)) := rfl
  rw [hcomp]
  unfold extract_kilo_settings
  rw [extract_encoded_aux p.modes [] hdot]
  rw [← List.foldl_map (fun q : String × String => (q.1, Json.str q.2))
    (fun d q => alInsert d q.1 q.2)]
  rw [foldl_alInsert_fresh _ [] (fun q hq => rfl) ?_, List.nil_append]
  rw [List.map_map]
  exact hnd

/-- C4 (amended): for every profile whose mode names are pairwise distinct
(as Python dict keys always are) and contain no `.` character, generating
settings and re-extracting mode-to-model pairs yields exactly the
profile's `modes` dict, so matching the re-extracted mapping against the
same profile succeeds as an exact match. -/
theorem generate_extract_roundtrip (p : ModeCombinationProfile)
    (hnd : NodupKeys p.modes)
    (hdot : ∀ q ∈ p.modes, ∀ c ∈ q.1.data, (c != '.') = true) :
    pyDictEqJson p.modes
      (extract_kilo_settings (settingsAsJson (generate_mode_settings p))) = true ∧
    findMatchingProfile [(p.id, p)]
      (extract_kilo_settings (settingsAsJson (generate_mode_settings p))) =
      some p.id := by
  have hkey := extract_of_generated p hnd hdot
  rw [hkey]
  refine ⟨pyDictEqJson_refl_str p.modes hnd, ?_⟩
  unfold findMatchingProfile
  rw [if_pos (pyDictEqJson_refl_str p.modes hnd)]

/-- A profile whose single mode name contains a dot. -/
def dotModeProfile : ModeCombinationProfile := ⟨"dotted", "dotted", "", [("a.b", "m")]⟩

/-- C4 counterexample: with the mode name `a.b`, the generated key
`kilo-code.a.b.model` re-extracts as mode `a` (the extractor splits at the
second dot), so the round trip is not an exact match and reconciliation
does not find the profile. -/
theorem generate_extract_roundtrip_cex :
    pyDictEqJson dotModeProfile.modes
      (extract_kilo_settings (settingsAsJson (generate_mode_settings dotModeProfile))) =
      false ∧
    findMatchingProfile [("dotted", dotModeProfile)]
      (extract_kilo_settings (settingsAsJson (generate_mode_settings dotModeProfile))) =
      none := by
  constructor <;> rfl

/-- The spec's concrete round-trip profile: id `lopr` with two modes. -/
def roundtripProfile : ModeCombinationProfile :=
  ⟨"lopr", "Low-Price (Economy)", "",
   [("default", "llama-4-maverick"), ("orchestrator", "deepseek-v3.2-exp")]⟩

theorem generate_extract_roundtrip_witness :
    pyDictEqJson roundtripProfile.modes
      (extract_kilo_settings (settingsAsJson (generate_mode_settings roundtripProfile))) =
      true ∧
    findMatchingProfile [(roundtripProfile.id, roundtripProfile)]
      (extract_kilo_settings (settingsAsJson (generate_mode_settings roundtripProfile))) =
      some roundtripProfile.id :=
  generate_extract_roundtrip roundtripProfile
    (by unfold NodupKeys alKeys; decide) (by decide)
